import Mathlib

/-!
Verification of the logging script `src/scratch.py` and its structured-logging
specification.  The script configures one named logger at level DEBUG, one
stream handler at level DEBUG with a fixed-width format template containing
the local UTC offset baked in at import time, and then emits six sample calls
(debug, info, warning, error, critical, exception).

Text is modelled as `List Char`.  Machinery that lives in the Python standard
`logging` library (the emit pipeline, the handler, exception capture) is not
part of the repository sources, so those parts are modelled from the
specification, as noted on each definition.
-/

namespace Scratch

/-- Severity enumeration of the spec (§3): TRACE=0 < DEBUG=1 < INFO=2 <
WARN=3 < ERROR=4 < CRITICAL=5.  Comparison is by rank only. -/
inductive Severity where
  | trace
  | debug
  | info
  | warning
  | error
  | critical
deriving DecidableEq, Repr

/-- Integer rank of a severity (§3). -/
def rank : Severity → Nat
  | Severity.trace => 0
  | Severity.debug => 1
  | Severity.info => 2
  | Severity.warning => 3
  | Severity.error => 4
  | Severity.critical => 5

/-- §4.1: meets_threshold(level, threshold) = rank(level) >= rank(threshold). -/
def meets_threshold (level threshold : Severity) : Prop :=
  rank threshold ≤ rank level

instance (level threshold : Severity) : Decidable (meets_threshold level threshold) :=
  Nat.decLe (rank threshold) (rank level)

/-- The `%(levelname)s` text of each severity, as the Python logging module
prints it in the rendered line. -/
def levelname : Severity → List Char
  | Severity.trace => ("TRACE").toList
  | Severity.debug => ("DEBUG").toList
  | Severity.info => ("INFO").toList
  | Severity.warning => ("WARNING").toList
  | Severity.error => ("ERROR").toList
  | Severity.critical => ("CRITICAL").toList

/-- Inverse lookup used by the field parser. -/
def levelOfName (s : List Char) : Option Severity :=
  if s = ("TRACE").toList then some Severity.trace
  else if s = ("DEBUG").toList then some Severity.debug
  else if s = ("INFO").toList then some Severity.info
  else if s = ("WARNING").toList then some Severity.warning
  else if s = ("ERROR").toList then some Severity.error
  else if s = ("CRITICAL").toList then some Severity.critical
  else none

/-- The decimal digit character for `d` (digits above 9 never arise from
`n % 10`). -/
def digitChar (d : Nat) : Char :=
  match d with
  | 0 => '0'
  | 1 => '1'
  | 2 => '2'
  | 3 => '3'
  | 4 => '4'
  | 5 => '5'
  | 6 => '6'
  | 7 => '7'
  | 8 => '8'
  | _ => '9'

/-- Numeric value of a decimal digit character. -/
def charDigit (c : Char) : Nat := c.toNat - 48

/-- Fuel-indexed decimal rendering of a natural number, most significant
digit first.  Any fuel larger than `n` yields the full digit string. -/
def natCharsCore : Nat → Nat → List Char
  | 0, _ => []
  | fuel + 1, n =>
    if n < 10 then [digitChar n]
    else natCharsCore fuel (n / 10) ++ [digitChar (n % 10)]

/-- Decimal rendering of a natural number, as Python `%d` prints it. -/
def natChars (n : Nat) : List Char := natCharsCore (n + 1) n

/-- Read a decimal digit string back into a natural number. -/
def parseNatChars (s : List Char) : Nat :=
  s.foldl (fun a c => 10 * a + charDigit c) 0

theorem digitChar_ne_bar (d : Nat) : digitChar d ≠ '|' := by
  unfold digitChar
  split <;> decide

theorem digitChar_ne_space (d : Nat) : digitChar d ≠ ' ' := by
  unfold digitChar
  split <;> decide

theorem charDigit_digitChar (d : Nat) (h : d < 10) : charDigit (digitChar d) = d := by
  interval_cases d <;> decide

theorem parseNatChars_append_digit (A : List Char) (c : Char) :
    parseNatChars (A ++ [c]) = 10 * parseNatChars A + charDigit c := by
  unfold parseNatChars
  rw [List.foldl_append]
  rfl

theorem parse_natCharsCore :
    ∀ fuel n, n < fuel → parseNatChars (natCharsCore fuel n) = n := by
  intro fuel
  induction fuel with
  | zero => intro n h; omega
  | succ k ih =>
    intro n h
    by_cases h10 : n < 10
    · simp only [natCharsCore, if_pos h10]
      unfold parseNatChars
      simp only [List.foldl_cons, List.foldl_nil]
      rw [charDigit_digitChar n h10]
      omega
    · have hdiv : n / 10 < k := by omega
      simp only [natCharsCore, if_neg h10]
      rw [parseNatChars_append_digit, ih (n / 10) hdiv,
        charDigit_digitChar (n % 10) (by omega)]
      omega

theorem parse_natChars (n : Nat) : parseNatChars (natChars n) = n :=
  parse_natCharsCore (n + 1) n (Nat.lt_succ_self n)

theorem natCharsCore_chars :
    ∀ fuel n c, c ∈ natCharsCore fuel n → c ≠ '|' ∧ c ≠ ' ' := by
  intro fuel
  induction fuel with
  | zero => intro n c h; simp [natCharsCore] at h
  | succ k ih =>
    intro n c h
    by_cases h10 : n < 10
    · simp only [natCharsCore, if_pos h10, List.mem_singleton] at h
      exact h ▸ ⟨digitChar_ne_bar n, digitChar_ne_space n⟩
    · simp only [natCharsCore, if_neg h10, List.mem_append, List.mem_singleton] at h
      rcases h with h | h
      · exact ih (n / 10) c h
      · exact h ▸ ⟨digitChar_ne_bar (n % 10), digitChar_ne_space (n % 10)⟩

theorem natChars_chars (n : Nat) (c : Char) (h : c ∈ natChars n) :
    c ≠ '|' ∧ c ≠ ' ' :=
  natCharsCore_chars (n + 1) n c h

theorem natCharsCore_fuel_irrel :
    ∀ f1 f2 n, n < f1 → n < f2 → natCharsCore f1 n = natCharsCore f2 n := by
  intro f1
  induction f1 with
  | zero => intro f2 n h1 _; omega
  | succ k ih =>
    intro f2 n h1 h2
    cases f2 with
    | zero => omega
    | succ m =>
      by_cases h10 : n < 10
      · simp only [natCharsCore, if_pos h10]
      · simp only [natCharsCore, if_neg h10]
        rw [ih m (n / 10) (by omega) (by omega)]

theorem natCharsCore_length :
    ∀ fuel n k, n < fuel → n < 10 ^ k → 1 ≤ k → (natCharsCore fuel n).length ≤ k := by
  intro fuel
  induction fuel with
  | zero => intro n k h _ _; omega
  | succ fl ih =>
    intro n k h hk h1
    by_cases h10 : n < 10
    · simp only [natCharsCore, if_pos h10, List.length_singleton]
      omega
    · have hk2 : 2 ≤ k := by
        by_contra hlt
        push_neg at hlt
        have hk1 : k = 1 := by omega
        rw [hk1, pow_one] at hk
        omega
      simp only [natCharsCore, if_neg h10, List.length_append, List.length_singleton]
      have hdivpow : n / 10 < 10 ^ (k - 1) := by
        have hp : 10 ^ k = 10 ^ (k - 1) * 10 := by
          have hs : k - 1 + 1 = k := by omega
          calc 10 ^ k = 10 ^ (k - 1 + 1) := by rw [hs]
            _ = 10 ^ (k - 1) * 10 := pow_succ 10 (k - 1)
        rw [Nat.div_lt_iff_lt_mul (by norm_num)]
        omega
      have := ih (n / 10) (k - 1) (by omega) hdivpow (by omega)
      omega

theorem natChars_length (n k : Nat) (hk : n < 10 ^ k) (h1 : 1 ≤ k) :
    (natChars n).length ≤ k :=
  natCharsCore_length (n + 1) n k (Nat.lt_succ_self n) hk h1

/-- `n` spaces. -/
def spaces (n : Nat) : List Char := List.replicate n ' '

/-- Left-aligned space padding to a minimum width: the semantics of a Python
`%-Nd` / `%-Ns` conversion.  Values longer than `w` are kept whole. -/
def padR (s : List Char) (w : Nat) : List Char := s ++ spaces (w - s.length)

/-- Zero padding to a minimum width: the semantics of a Python `%0Nd`
conversion. -/
def pad0 (s : List Char) (w : Nat) : List Char :=
  List.replicate (w - s.length) '0' ++ s

theorem padR_length (s : List Char) (w : Nat) :
    (padR s w).length = max w s.length := by
  simp [padR, spaces, List.length_append, List.length_replicate]
  omega

theorem pad0_length (s : List Char) (w : Nat) (h : s.length ≤ w) :
    (pad0 s w).length = w := by
  simp [pad0, List.length_append, List.length_replicate]
  omega

theorem padR_chars (s : List Char) (w : Nat) (c : Char) (h : c ∈ padR s w) :
    c ∈ s ∨ c = ' ' := by
  simp only [padR, spaces, List.mem_append, List.mem_replicate] at h
  rcases h with h | h
  · exact Or.inl h
  · exact Or.inr h.2

theorem pad0_chars (s : List Char) (w : Nat) (c : Char) (h : c ∈ pad0 s w) :
    c ∈ s ∨ c = '0' := by
  simp only [pad0, List.mem_append, List.mem_replicate] at h
  rcases h with h | h
  · exact Or.inr h.2
  · exact Or.inl h

/-- Strip spaces from both ends of a field. -/
def trimSpaces (s : List Char) : List Char :=
  ((s.dropWhile (fun c => c == ' ')).reverse.dropWhile (fun c => c == ' ')).reverse

theorem dropWhile_spaces_append (t : List Char) :
    ∀ a, (spaces a ++ t).dropWhile (fun c => c == ' ') =
      t.dropWhile (fun c => c == ' ') := by
  intro a
  induction a with
  | zero => simp [spaces]
  | succ m ih =>
    have : spaces (m + 1) = ' ' :: spaces m := by
      simp [spaces, List.replicate_succ]
    rw [this]
    simpa using ih

theorem dropWhile_of_head_ne (c : Char) (t : List Char) (h : ¬ c = ' ') :
    (c :: t).dropWhile (fun x => x == ' ') = c :: t := by
  simp [List.dropWhile_cons, h]

theorem dropWhile_eq_self_of_chars (l : List Char) (h : ∀ x ∈ l, ¬ x = ' ') :
    l.dropWhile (fun x => x == ' ') = l := by
  cases l with
  | nil => rfl
  | cons c t => exact dropWhile_of_head_ne c t (h c (List.mem_cons_self c t))

theorem trimSpaces_pad (s : List Char) (a b : Nat) (h : ∀ c ∈ s, ¬ c = ' ') :
    trimSpaces (spaces a ++ (s ++ spaces b)) = s := by
  unfold trimSpaces
  rw [dropWhile_spaces_append]
  cases s with
  | nil =>
    simp only [List.nil_append]
    have hb : (spaces b).dropWhile (fun c => c == ' ') = [] := by
      have := dropWhile_spaces_append [] b
      simpa using this
    simp [hb]
  | cons c t =>
    have hc : ¬ c = ' ' := h c (List.mem_cons_self c t)
    rw [List.cons_append, dropWhile_of_head_ne c (t ++ spaces b) hc]
    have hrev : (c :: (t ++ spaces b)).reverse = spaces b ++ (t.reverse ++ [c]) := by
      simp [List.reverse_cons, List.reverse_append, List.append_assoc, spaces]
    rw [hrev, dropWhile_spaces_append]
    have hall : ∀ x ∈ t.reverse ++ [c], ¬ x = ' ' := by
      intro x hx
      rcases List.mem_append.1 hx with hx | hx
      · exact h x (List.mem_cons_of_mem c (List.mem_reverse.1 hx))
      · rw [List.mem_singleton.1 hx]
        exact hc
    rw [dropWhile_eq_self_of_chars _ hall]
    simp

/-- Split a rendered line at each `'|'` character (the parser's view of the
`" | "` column separators of the template). -/
def splitBar : List Char → List (List Char)
  | [] => [[]]
  | c :: rest =>
    if c = '|' then [] :: splitBar rest
    else
      match splitBar rest with
      | [] => [[c]]
      | p :: ps => (c :: p) :: ps

theorem splitBar_no_bar : ∀ A : List Char, '|' ∉ A → splitBar A = [A] := by
  intro A
  induction A with
  | nil => intro _; rfl
  | cons c t ih =>
    intro h
    have hc : ¬ c = '|' := fun hc => h (hc ▸ List.mem_cons_self c t)
    have ht : '|' ∉ t := fun ht => h (List.mem_cons_of_mem c ht)
    simp only [splitBar, if_neg hc, ih ht]

theorem splitBar_append_bar :
    ∀ A B : List Char, '|' ∉ A → splitBar (A ++ '|' :: B) = A :: splitBar B := by
  intro A
  induction A with
  | nil =>
    intro B _
    simp [splitBar]
  | cons c t ih =>
    intro B h
    have hc : ¬ c = '|' := fun hc => h (hc ▸ List.mem_cons_self c t)
    have ht : '|' ∉ t := fun ht => h (List.mem_cons_of_mem c ht)
    simp only [List.cons_append, splitBar, if_neg hc, List.append_eq, ih B ht]

/-- A log Record (spec §3): instant, process id, thread id, severity, source
line and message. -/
structure Record where
  year : Nat
  month : Nat
  day : Nat
  hour : Nat
  minute : Nat
  second : Nat
  msec : Nat
  pid : Nat
  tid : Nat
  severity : Severity
  lineno : Nat
  message : List Char
deriving DecidableEq, Repr

/-- The formatter of `scratch.py` lines 10-20.  The template is the fixed
string built there; its only construction-time input is the local UTC offset
`time.strftime("%z")`, evaluated once at import and concatenated into the
template, so it is the formatter's only field. -/
structure Formatter where
  offset : List Char
deriving DecidableEq, Repr

/-- The `" | "` column separator of the template. -/
def sepChars : List Char := [' ', '|', ' ']

/-- The `%Y-%m-%dT%H:%M:%S` date portion (datefmt argument on line 19 of
`scratch.py`), zero-padded per strftime. -/
def asctime (r : Record) : List Char :=
  pad0 (natChars r.year) 4 ++ ['-'] ++ pad0 (natChars r.month) 2 ++ ['-']
    ++ pad0 (natChars r.day) 2 ++ ['T'] ++ pad0 (natChars r.hour) 2 ++ [':']
    ++ pad0 (natChars r.minute) 2 ++ [':'] ++ pad0 (natChars r.second) 2

/-- The timestamp portion of a rendered line:
`%(asctime)s.%(msecs)03d` followed by the offset captured at formatter
construction (line 12 of `scratch.py`). -/
def tsChars (f : Formatter) (r : Record) : List Char :=
  asctime r ++ ['.'] ++ pad0 (natChars r.msec) 3 ++ f.offset

/-- Rendering of a Record with the template of `scratch.py` lines 10-20:
`%(asctime)s.%(msecs)03d<offset> | %(process)-8d | %(thread)-16d |
%(levelname)-8s | %(lineno)-4d | %(message)s`. -/
def render (f : Formatter) (r : Record) : List Char :=
  tsChars f r
    ++ sepChars ++ padR (natChars r.pid) 8
    ++ sepChars ++ padR (natChars r.tid) 16
    ++ sepChars ++ padR (levelname r.severity) 8
    ++ sepChars ++ padR (natChars r.lineno) 4
    ++ sepChars ++ r.message

/-- Characters that can never collide with the column separator or padding. -/
def charsOK (l : List Char) : Prop := ∀ c ∈ l, ¬ c = '|' ∧ ¬ c = ' '

theorem charsOK_natChars (n : Nat) : charsOK (natChars n) :=
  fun c h => natChars_chars n c h

theorem charsOK_levelname (s : Severity) : charsOK (levelname s) := by
  intro c hc
  have hall : (levelname s).all (fun x => !(x == '|') && !(x == ' ')) = true := by
    cases s <;> decide
  have h := List.all_eq_true.1 hall c hc
  simp at h
  exact h

theorem charsOK_pad0_nat (n w : Nat) : charsOK (pad0 (natChars n) w) := by
  intro c hc
  rcases pad0_chars _ _ _ hc with h | h
  · exact natChars_chars n c h
  · subst h
    exact ⟨by decide, by decide⟩

theorem charsOK_not_bar (l : List Char) (h : charsOK l) : '|' ∉ l :=
  fun hm => (h _ hm).1 rfl

theorem charsOK_asctime (r : Record) : charsOK (asctime r) := by
  intro c hc
  simp only [asctime, List.append_assoc, List.mem_append, List.mem_singleton] at hc
  rcases hc with hc | hc | hc | hc | hc | hc | hc | hc | hc | hc | hc
  · exact charsOK_pad0_nat _ _ c hc
  · subst hc
    exact ⟨by decide, by decide⟩
  · exact charsOK_pad0_nat _ _ c hc
  · subst hc
    exact ⟨by decide, by decide⟩
  · exact charsOK_pad0_nat _ _ c hc
  · subst hc
    exact ⟨by decide, by decide⟩
  · exact charsOK_pad0_nat _ _ c hc
  · subst hc
    exact ⟨by decide, by decide⟩
  · exact charsOK_pad0_nat _ _ c hc
  · subst hc
    exact ⟨by decide, by decide⟩
  · exact charsOK_pad0_nat _ _ c hc

theorem tsChars_no_bar (f : Formatter) (r : Record) (hoff : '|' ∉ f.offset) :
    '|' ∉ tsChars f r := by
  intro h
  simp only [tsChars, List.append_assoc, List.mem_append] at h
  rcases h with h | h | h | h
  · exact charsOK_not_bar _ (charsOK_asctime r) h
  · exact absurd (List.mem_singleton.1 h) (by decide)
  · exact charsOK_not_bar _ (charsOK_pad0_nat _ _) h
  · exact hoff h

theorem ts_part_no_bar (f : Formatter) (r : Record) (hoff : '|' ∉ f.offset) :
    '|' ∉ tsChars f r ++ [' '] := by
  intro h
  rcases List.mem_append.1 h with h | h
  · exact tsChars_no_bar f r hoff h
  · exact absurd (List.mem_singleton.1 h) (by decide)

theorem field_no_bar (X : List Char) (w : Nat) (hX : charsOK X) :
    '|' ∉ ' ' :: (padR X w ++ [' ']) := by
  intro h
  rcases List.mem_cons.1 h with h | h
  · exact absurd h (by decide)
  · rcases List.mem_append.1 h with h | h
    · rcases padR_chars _ _ _ h with h | h
      · exact (hX _ h).1 rfl
      · exact absurd h (by decide)
    · exact absurd (List.mem_singleton.1 h) (by decide)

theorem splitBar_render (f : Formatter) (r : Record) (hoff : '|' ∉ f.offset) :
    splitBar (render f r) =
      (tsChars f r ++ [' ']) ::
      (' ' :: (padR (natChars r.pid) 8 ++ [' '])) ::
      (' ' :: (padR (natChars r.tid) 16 ++ [' '])) ::
      (' ' :: (padR (levelname r.severity) 8 ++ [' '])) ::
      (' ' :: (padR (natChars r.lineno) 4 ++ [' '])) ::
      splitBar (' ' :: r.message) := by
  have h1 : render f r =
      (tsChars f r ++ [' ']) ++ '|' ::
      ((' ' :: (padR (natChars r.pid) 8 ++ [' '])) ++ '|' ::
      ((' ' :: (padR (natChars r.tid) 16 ++ [' '])) ++ '|' ::
      ((' ' :: (padR (levelname r.severity) 8 ++ [' '])) ++ '|' ::
      ((' ' :: (padR (natChars r.lineno) 4 ++ [' '])) ++ '|' ::
      (' ' :: r.message))))) := by
    simp [render, sepChars, List.append_assoc]
  rw [h1]
  rw [splitBar_append_bar _ _ (ts_part_no_bar f r hoff)]
  rw [splitBar_append_bar _ _ (field_no_bar _ 8 (charsOK_natChars r.pid))]
  rw [splitBar_append_bar _ _ (field_no_bar _ 16 (charsOK_natChars r.tid))]
  rw [splitBar_append_bar _ _ (field_no_bar _ 8 (charsOK_levelname r.severity))]
  rw [splitBar_append_bar _ _ (field_no_bar _ 4 (charsOK_natChars r.lineno))]

/-- The `i`-th space-trimmed `'|'`-separated field of a rendered line. -/
def fieldAt (line : List Char) (i : Nat) : List Char :=
  trimSpaces ((splitBar line).getD i [])

/-- Parse the process id back out of a rendered line. -/
def parsePid (line : List Char) : Nat := parseNatChars (fieldAt line 1)

/-- Parse the thread id back out of a rendered line. -/
def parseTid (line : List Char) : Nat := parseNatChars (fieldAt line 2)

/-- Parse the severity back out of a rendered line. -/
def parseLevel (line : List Char) : Option Severity := levelOfName (fieldAt line 3)

/-- Parse the source line number back out of a rendered line. -/
def parseLineno (line : List Char) : Nat := parseNatChars (fieldAt line 4)

theorem trim_field (X : List Char) (w : Nat) (hX : ∀ c ∈ X, ¬ c = ' ') :
    trimSpaces (' ' :: (padR X w ++ [' '])) = X := by
  have h : ' ' :: (padR X w ++ [' ']) =
      spaces 1 ++ (X ++ spaces (w - X.length + 1)) := by
    simp [spaces, padR, List.replicate_succ', List.replicate_one, List.append_assoc]
  rw [h]
  exact trimSpaces_pad X 1 _ hX

theorem trim_right_space (Y : List Char) (hY : ∀ c ∈ Y, ¬ c = ' ') :
    trimSpaces (Y ++ [' ']) = Y := by
  have h : Y ++ [' '] = spaces 0 ++ (Y ++ spaces 1) := by
    simp [spaces, List.replicate_one]
  rw [h]
  exact trimSpaces_pad Y 0 1 hY

theorem fieldAt_render (f : Formatter) (r : Record) (hoff : '|' ∉ f.offset) :
    fieldAt (render f r) 1 = natChars r.pid ∧
    fieldAt (render f r) 2 = natChars r.tid ∧
    fieldAt (render f r) 3 = levelname r.severity ∧
    fieldAt (render f r) 4 = natChars r.lineno := by
  have hs := splitBar_render f r hoff
  refine ⟨?_, ?_, ?_, ?_⟩ <;> unfold fieldAt <;> rw [hs]
  · show trimSpaces (' ' :: (padR (natChars r.pid) 8 ++ [' '])) = natChars r.pid
    exact trim_field _ 8 (fun c hc => (natChars_chars _ c hc).2)
  · show trimSpaces (' ' :: (padR (natChars r.tid) 16 ++ [' '])) = natChars r.tid
    exact trim_field _ 16 (fun c hc => (natChars_chars _ c hc).2)
  · show trimSpaces (' ' :: (padR (levelname r.severity) 8 ++ [' '])) =
      levelname r.severity
    exact trim_field _ 8 (fun c hc => (charsOK_levelname r.severity c hc).2)
  · show trimSpaces (' ' :: (padR (natChars r.lineno) 4 ++ [' '])) = natChars r.lineno
    exact trim_field _ 4 (fun c hc => (natChars_chars _ c hc).2)

theorem levelOfName_levelname (s : Severity) : levelOfName (levelname s) = some s := by
  cases s <;> decide

/-- A Logger (spec §3): a minimum severity threshold and an ordered list of
destinations, each a Formatter paired with a sink identifier. -/
structure Logger where
  threshold : Severity
  destinations : List (Formatter × Nat)
deriving DecidableEq, Repr

/-- Call-site data an emit call would sample: current instant, process id,
thread id and source line. -/
structure EmitData where
  year : Nat
  month : Nat
  day : Nat
  hour : Nat
  minute : Nat
  second : Nat
  msec : Nat
  pid : Nat
  tid : Nat
  lineno : Nat
deriving DecidableEq, Repr

/-- The one Record an enabled emit call constructs (spec §4.4 step 2). -/
def mkRecord (sev : Severity) (msg : List Char) (d : EmitData) : Record :=
  Record.mk d.year d.month d.day d.hour d.minute d.second d.msec d.pid d.tid
    sev d.lineno msg

/-- Modelled from the spec: the `Logger.emit` control flow of §4.4 (the Python
`logging` library that implements it is not among the repository sources).
Step 1: if the severity is below the threshold, return immediately with no
Record constructed and no writes.  Steps 2-3: otherwise construct one Record
and, for each destination in registration order, render it and write the text
to that destination's sink.  The result is the Record constructed (if any)
together with the list of (sink id, rendered text) writes. -/
def emit (lg : Logger) (sev : Severity) (msg : List Char) (d : EmitData) :
    Option Record × List (Nat × List Char) :=
  if meets_threshold sev lg.threshold then
    (some (mkRecord sev msg d),
      lg.destinations.map (fun dest => (dest.2, render dest.1 (mkRecord sev msg d))))
  else (none, [])

/-- The logger configured by `scratch.py` lines 7-8 and 22-26: threshold
DEBUG (line 8) and a single console destination (sink id 0) whose formatter
carries the UTC offset captured at import time (line 12).  The handler's own
level is also DEBUG (line 23), equal to the logger's, so the spec model's
single threshold describes the same filtering. -/
def scriptLogger (off : List Char) : Logger :=
  Logger.mk Severity.debug [(Formatter.mk off, 0)]

/-- The six sample emissions of `scratch.py` lines 29-34, in program order:
(severity, source line, message).  `logger.exception` on line 34 logs at
ERROR severity (it is error-level emission that additionally captures the
propagating failure, per spec §4.4). -/
def scriptEmissions : List (Severity × Nat × List Char) :=
  [(Severity.debug, 29, ("Debug message.").toList),
   (Severity.info, 30, ("Info message.").toList),
   (Severity.warning, 31, ("Warning message.").toList),
   (Severity.error, 32, ("Error message.").toList),
   (Severity.critical, 33, ("Warning message.").toList),
   (Severity.error, 34, ("Exception message.").toList)]

/-- How many of the script's sample emissions carry severity `s`. -/
def severityCount (s : Severity) : Nat :=
  (scriptEmissions.filter (fun e => decide (e.1 = s))).length

/-- Substitute the per-call source line into the sampled call-site data. -/
def withLine (d : EmitData) (n : Nat) : EmitData :=
  EmitData.mk d.year d.month d.day d.hour d.minute d.second d.msec d.pid d.tid n

/-- Running the script top to bottom: every sample call of lines 29-34 goes
through `emit` on the configured logger. -/
def runScript (off : List Char) (d : EmitData) :
    List (Option Record × List (Nat × List Char)) :=
  scriptEmissions.map (fun e => emit (scriptLogger off) e.1 e.2.2 (withLine d e.2.1))

/-- The two process output streams. -/
inductive StreamTarget where
  | stdout
  | stderr
deriving DecidableEq, Repr

/-- The observable effect of one console write. -/
structure WriteEffect where
  target : StreamTarget
  data : List Char
  flushed : Bool
deriving DecidableEq, Repr

/-- Modelled from the spec: the console sink of §4.3 (the Python
`logging.StreamHandler` created without arguments on line 22 of `scratch.py`
is library code, not among the repository sources).  It appends a trailing
newline, writes to the process's standard error stream, and flushes
immediately after the write. -/
def consoleSinkWrite (text : List Char) : WriteEffect :=
  WriteEffect.mk StreamTarget.stderr (text ++ ['\n']) true

/-- A propagating failure: its description and, when available, a structured
trace of the call stack at the point of capture. -/
structure Failure where
  descr : List Char
  callStack : Option (List (List Char))
deriving DecidableEq, Repr

/-- The fixed delimiter under which exception text is appended to the
message. -/
def excDelim : List Char := ['\n']

/-- Modelled from the spec: the text captured from a propagating failure for
"exception"-style emission (§4.4) — the call-stack trace when available,
followed by the failure's description. -/
def failureText (f : Failure) : List Char :=
  match f.callStack with
  | none => f.descr
  | some tr => tr.foldr (fun frame acc => frame ++ '\n' :: acc) f.descr

/-- Modelled from the spec: "exception"-style emission (§4.4, the behaviour
behind `logger.exception` on line 34 of `scratch.py`, implemented by library
code not among the repository sources).  It appends the captured failure text
to the message under the fixed delimiter and leaves the propagating failure
untouched: the pair returned is the message text to emit and the failure
still propagating afterwards. -/
def exceptionEmit (f : Failure) (msg : List Char) : List Char × Failure :=
  (msg ++ excDelim ++ failureText f, f)

/-- C1: for every severity S with rank(S) < rank(threshold), emit(S, msg)
produces zero writes to any sink and returns immediately with no Record
constructed; and since the script's logger threshold (like its handler's) is
DEBUG, the only severity a hypothetical emission could be filtered at is the
sub-DEBUG severity TRACE. -/
theorem emit_below_threshold_no_writes (off : List Char) (lg : Logger)
    (s : Severity) (msg : List Char) (d : EmitData)
    (h : rank s < rank lg.threshold) :
    emit lg s msg d = (none, []) ∧
    (s = Severity.trace ∨ rank (scriptLogger off).threshold ≤ rank s) := by
  constructor
  · have hnot : ¬ meets_threshold s lg.threshold := by
      unfold meets_threshold
      omega
    simp [emit, hnot]
  · cases s <;> simp [scriptLogger, rank]

/-- Witness for C1: in the script's configuration a TRACE emission is
filtered with no Record and no writes. -/
theorem emit_below_threshold_no_writes_witness :
    emit (scriptLogger (("+0800").toList)) Severity.trace
      (("Trace message.").toList)
      (EmitData.mk 2026 10 12 9 30 0 123 4242 123456 29) = (none, []) ∧
    (Severity.trace = Severity.trace ∨
      rank (scriptLogger (("+0800").toList)).threshold ≤ rank Severity.trace) :=
  emit_below_threshold_no_writes (("+0800").toList) _ _ _ _ (by decide)

/-- C2: for every severity S with rank(S) >= rank(threshold), emit(S, msg)
produces exactly one write per registered destination, in registration order
and with no duplication or drops. -/
theorem emit_one_write_per_destination (lg : Logger) (s : Severity)
    (msg : List Char) (d : EmitData) (h : rank lg.threshold ≤ rank s) :
    ((emit lg s msg d).2).length = lg.destinations.length ∧
    ((emit lg s msg d).2).map Prod.fst = lg.destinations.map Prod.snd := by
  have hm : meets_threshold s lg.threshold := h
  simp [emit, hm]

/-- Witness for C2: with the script's single console handler, an enabled
INFO sample call yields exactly one written line, on the one registered
sink. -/
theorem emit_one_write_per_destination_witness :
    ((emit (scriptLogger (("+0800").toList)) Severity.info
      (("Info message.").toList)
      (EmitData.mk 2026 10 12 9 30 0 123 4242 123456 30)).2).length = 1 ∧
    ((emit (scriptLogger (("+0800").toList)) Severity.info
      (("Info message.").toList)
      (EmitData.mk 2026 10 12 9 30 0 123 4242 123456 30)).2).map Prod.fst = [0] :=
  emit_one_write_per_destination _ _ _ _ (by decide)

/-- C5: rendering a Record with the default template and then parsing the
fixed-width fields back out of the resulting line recovers pid, tid, level
and line exactly, for every record (the offset captured from strftime never
contains the `'|'` separator character). -/
theorem render_parse_round_trip (f : Formatter) (r : Record)
    (hoff : '|' ∉ f.offset) :
    parsePid (render f r) = r.pid ∧ parseTid (render f r) = r.tid ∧
    parseLevel (render f r) = some r.severity ∧
    parseLineno (render f r) = r.lineno := by
  obtain ⟨h1, h2, h3, h4⟩ := fieldAt_render f r hoff
  refine ⟨?_, ?_, ?_, ?_⟩
  · unfold parsePid
    rw [h1, parse_natChars]
  · unfold parseTid
    rw [h2, parse_natChars]
  · unfold parseLevel
    rw [h3, levelOfName_levelname]
  · unfold parseLineno
    rw [h4, parse_natChars]

/-- Witness for C5: concrete round trip of a rendered WARNING record. -/
theorem render_parse_round_trip_witness :
    parsePid (render (Formatter.mk (("+0800").toList))
      (Record.mk 2026 10 12 9 30 0 123 4242 123456 Severity.warning 31
        (("Warning message.").toList))) = 4242 ∧
    parseTid (render (Formatter.mk (("+0800").toList))
      (Record.mk 2026 10 12 9 30 0 123 4242 123456 Severity.warning 31
        (("Warning message.").toList))) = 123456 ∧
    parseLevel (render (Formatter.mk (("+0800").toList))
      (Record.mk 2026 10 12 9 30 0 123 4242 123456 Severity.warning 31
        (("Warning message.").toList))) = some Severity.warning ∧
    parseLineno (render (Formatter.mk (("+0800").toList))
      (Record.mk 2026 10 12 9 30 0 123 4242 123456 Severity.warning 31
        (("Warning message.").toList))) = 31 :=
  render_parse_round_trip _ _ (by decide)

/-- C6: the console sink, created without explicit stream configuration,
writes every rendered record to the process's standard error stream, appends
a trailing newline, and flushes immediately after the write. -/
theorem console_sink_stderr_newline_flush (f : Formatter) (r : Record) :
    (consoleSinkWrite (render f r)).target = StreamTarget.stderr ∧
    (consoleSinkWrite (render f r)).data = render f r ++ ['\n'] ∧
    (consoleSinkWrite (render f r)).flushed = true :=
  ⟨rfl, rfl, rfl⟩

/-- C8: exception-style emission appends the captured failure description —
preceded by the structured call-stack trace when one is available — to the
message text under the fixed delimiter, and returns the propagating failure
unchanged (never re-raised, never suppressed). -/
theorem exception_emission_appends_and_preserves (descr : List Char)
    (tr : List (List Char)) (msg : List Char) :
    (exceptionEmit (Failure.mk descr none) msg).2 = Failure.mk descr none ∧
    (exceptionEmit (Failure.mk descr (some tr)) msg).2 =
      Failure.mk descr (some tr) ∧
    (exceptionEmit (Failure.mk descr none) msg).1 = msg ++ excDelim ++ descr ∧
    (exceptionEmit (Failure.mk descr (some tr)) msg).1 =
      msg ++ excDelim ++ tr.foldr (fun frame acc => frame ++ '\n' :: acc) descr :=
  ⟨rfl, rfl, rfl, rfl⟩

/-- C3 fails on the code: `%-4d` (like `%-8d`, `%-16d`, `%-8s`) left-aligns
and space-pads to a minimum width but never truncates, so on a record with
source line number 12345 the rendered line's lineno field holds all five
digits instead of a fixed four — the fields are not fixed-width for values
longer than the stated width. -/
theorem lineno_field_not_truncated :
    fieldAt (render (Formatter.mk (("+0800").toList))
      (Record.mk 2026 10 12 9 30 0 123 4242 123456 Severity.critical 12345
        (("Warning message.").toList))) 4 = ("12345").toList ∧
    ¬ (fieldAt (render (Formatter.mk (("+0800").toList))
      (Record.mk 2026 10 12 9 30 0 123 4242 123456 Severity.critical 12345
        (("Warning message.").toList))) 4).length = 4 := by
  decide

/-- C3 amended: in every rendered line the level, pid, tid and line fields
are left-aligned and space-padded to minimum widths of 8, 8, 16 and 4
characters respectively (each raw column is the value plus one space on each
side, so its length is 2 + max(width, value length)); values longer than the
stated width are rendered in full, not truncated, so the fields are
fixed-width only for values that fit. -/
theorem fields_padded_to_minimum_width (f : Formatter) (r : Record)
    (hoff : '|' ∉ f.offset) :
    ((splitBar (render f r)).getD 1 []).length = 2 + max 8 (natChars r.pid).length ∧
    ((splitBar (render f r)).getD 2 []).length = 2 + max 16 (natChars r.tid).length ∧
    ((splitBar (render f r)).getD 3 []).length =
      2 + max 8 (levelname r.severity).length ∧
    ((splitBar (render f r)).getD 4 []).length = 2 + max 4 (natChars r.lineno).length ∧
    fieldAt (render f r) 1 = natChars r.pid ∧
    fieldAt (render f r) 4 = natChars r.lineno := by
  have hs := splitBar_render f r hoff
  refine ⟨?_, ?_, ?_, ?_, (fieldAt_render f r hoff).1,
    (fieldAt_render f r hoff).2.2.2⟩ <;> rw [hs]
  · show (' ' :: (padR (natChars r.pid) 8 ++ [' '])).length = _
    simp [padR_length]
    omega
  · show (' ' :: (padR (natChars r.tid) 16 ++ [' '])).length = _
    simp [padR_length]
    omega
  · show (' ' :: (padR (levelname r.severity) 8 ++ [' '])).length = _
    simp [padR_length]
    omega
  · show (' ' :: (padR (natChars r.lineno) 4 ++ [' '])).length = _
    simp [padR_length]
    omega

/-- Witness for the amended C3: concrete column widths for a record whose
lineno (12345) overflows its stated width while the other values fit. -/
theorem fields_padded_to_minimum_width_witness :
    ((splitBar (render (Formatter.mk (("+0800").toList))
      (Record.mk 2026 10 12 9 30 0 123 4242 123456 Severity.critical 12345
        (("Warning message.").toList)))).getD 1 []).length =
      2 + max 8 (natChars 4242).length ∧
    ((splitBar (render (Formatter.mk (("+0800").toList))
      (Record.mk 2026 10 12 9 30 0 123 4242 123456 Severity.critical 12345
        (("Warning message.").toList)))).getD 2 []).length =
      2 + max 16 (natChars 123456).length ∧
    ((splitBar (render (Formatter.mk (("+0800").toList))
      (Record.mk 2026 10 12 9 30 0 123 4242 123456 Severity.critical 12345
        (("Warning message.").toList)))).getD 3 []).length =
      2 + max 8 (levelname Severity.critical).length ∧
    ((splitBar (render (Formatter.mk (("+0800").toList))
      (Record.mk 2026 10 12 9 30 0 123 4242 123456 Severity.critical 12345
        (("Warning message.").toList)))).getD 4 []).length =
      2 + max 4 (natChars 12345).length ∧
    fieldAt (render (Formatter.mk (("+0800").toList))
      (Record.mk 2026 10 12 9 30 0 123 4242 123456 Severity.critical 12345
        (("Warning message.").toList))) 1 = natChars 4242 ∧
    fieldAt (render (Formatter.mk (("+0800").toList))
      (Record.mk 2026 10 12 9 30 0 123 4242 123456 Severity.critical 12345
        (("Warning message.").toList))) 4 = natChars 12345 :=
  fields_padded_to_minimum_width _ _ (by decide)

/-- C4: for every record, the timestamp is rendered as
`YYYY-MM-DDTHH:MM:SS.mmm±HHMM` — the date part has the fixed 19-character
`%Y-%m-%dT%H:%M:%S` shape, the milliseconds are three zero-padded digits,
and the UTC offset appearing after them is exactly the offset the formatter
was constructed with at import time, unchanged for every record regardless of
the record's own instant. -/
theorem timestamp_offset_fixed_at_construction (off : List Char) (r : Record)
    (hoff : ∀ c ∈ off, ¬ c = '|' ∧ ¬ c = ' ')
    (hms : r.msec < 1000) (hy : r.year < 10000) (hmo : r.month < 100)
    (hd : r.day < 100) (hh : r.hour < 100) (hmi : r.minute < 100)
    (hsec : r.second < 100) :
    fieldAt (render (Formatter.mk off) r) 0 =
      asctime r ++ ['.'] ++ pad0 (natChars r.msec) 3 ++ off ∧
    (asctime r).length = 19 ∧
    (pad0 (natChars r.msec) 3).length = 3 := by
  have hbar : '|' ∉ off := fun hm => (hoff _ hm).1 rfl
  have hpow2 : (10:Nat) ^ 2 = 100 := by norm_num
  have hpow3 : (10:Nat) ^ 3 = 1000 := by norm_num
  have hpow4 : (10:Nat) ^ 4 = 10000 := by norm_num
  have lyear : (pad0 (natChars r.year) 4).length = 4 :=
    pad0_length _ 4 (natChars_length _ 4 (by omega) (by omega))
  have lmonth : (pad0 (natChars r.month) 2).length = 2 :=
    pad0_length _ 2 (natChars_length _ 2 (by omega) (by omega))
  have lday : (pad0 (natChars r.day) 2).length = 2 :=
    pad0_length _ 2 (natChars_length _ 2 (by omega) (by omega))
  have lhour : (pad0 (natChars r.hour) 2).length = 2 :=
    pad0_length _ 2 (natChars_length _ 2 (by omega) (by omega))
  have lminute : (pad0 (natChars r.minute) 2).length = 2 :=
    pad0_length _ 2 (natChars_length _ 2 (by omega) (by omega))
  have lsecond : (pad0 (natChars r.second) 2).length = 2 :=
    pad0_length _ 2 (natChars_length _ 2 (by omega) (by omega))
  have lmsec : (pad0 (natChars r.msec) 3).length = 3 :=
    pad0_length _ 3 (natChars_length _ 3 (by omega) (by omega))
  refine ⟨?_, ?_, lmsec⟩
  · have hsr := splitBar_render (Formatter.mk off) r hbar
    unfold fieldAt
    rw [hsr]
    show trimSpaces (tsChars (Formatter.mk off) r ++ [' ']) = _
    have hts : ∀ c ∈ tsChars (Formatter.mk off) r, ¬ c = ' ' := by
      intro c hc
      simp only [tsChars, List.append_assoc, List.mem_append,
        List.mem_singleton] at hc
      rcases hc with hc | hc | hc | hc
      · exact (charsOK_asctime r c hc).2
      · subst hc
        decide
      · exact (charsOK_pad0_nat _ _ c hc).2
      · exact (hoff c hc).2
    rw [trim_right_space _ hts]
    simp [tsChars, List.append_assoc]
  · simp [asctime, List.length_append, List.length_singleton, lyear, lmonth,
      lday, lhour, lminute, lsecond]

/-- Witness for C4: the timestamp field of a concrete rendered record carries
the construction-time offset "+0800". -/
theorem timestamp_offset_fixed_at_construction_witness :
    fieldAt (render (Formatter.mk (("+0800").toList))
      (Record.mk 2026 10 12 9 30 0 123 4242 123456 Severity.info 30
        (("Info message.").toList))) 0 =
      asctime (Record.mk 2026 10 12 9 30 0 123 4242 123456 Severity.info 30
        (("Info message.").toList)) ++ ['.']
        ++ pad0 (natChars 123) 3 ++ ("+0800").toList ∧
    (asctime (Record.mk 2026 10 12 9 30 0 123 4242 123456 Severity.info 30
      (("Info message.").toList))).length = 19 ∧
    (pad0 (natChars 123) 3).length = 3 :=
  timestamp_offset_fixed_at_construction _ _ (by decide) (by decide) (by decide)
    (by decide) (by decide) (by decide) (by decide) (by decide)

/-- C7 fails on the code: `logger.exception` on line 34 also logs at ERROR
severity, so running the script top to bottom emits two sample lines at the
ERROR level (lines 32 and 34), not exactly one at each severity level. -/
theorem error_severity_emitted_twice :
    severityCount Severity.error = 2 ∧ ¬ severityCount Severity.error = 1 := by
  decide

/-- C7 amended: running the script top to bottom emits exactly one sample
line at each of DEBUG, INFO, WARNING and CRITICAL and exactly two at ERROR
(the `error` call on line 32 plus the `exception` call on line 34, which logs
at ERROR severity); every one of the six calls passes the DEBUG threshold and
produces exactly one written line on the single console destination. -/
theorem script_emission_counts (off : List Char) (d : EmitData) :
    severityCount Severity.trace = 0 ∧ severityCount Severity.debug = 1 ∧
    severityCount Severity.info = 1 ∧ severityCount Severity.warning = 1 ∧
    severityCount Severity.error = 2 ∧ severityCount Severity.critical = 1 ∧
    (runScript off d).map (fun x => x.2.length) = [1, 1, 1, 1, 1, 1] := by
  refine ⟨by decide, by decide, by decide, by decide, by decide, by decide, ?_⟩
  simp [runScript, scriptEmissions, emit, scriptLogger, meets_threshold, rank]

/-- C9: the CRITICAL sample call on line 33 passes the message text
"Warning message." — identical to the WARNING sample on line 31 — so the
rendered CRITICAL line's message field reads "Warning message.", not a
critical-specific message. -/
theorem critical_call_reuses_warning_message :
    (scriptEmissions.getD 4 (Severity.trace, 0, [])).1 = Severity.critical ∧
    (scriptEmissions.getD 4 (Severity.trace, 0, [])).2.1 = 33 ∧
    (scriptEmissions.getD 4 (Severity.trace, 0, [])).2.2 =
      ("Warning message.").toList ∧
    (scriptEmissions.getD 4 (Severity.trace, 0, [])).2.2 =
      (scriptEmissions.getD 2 (Severity.trace, 0, [])).2.2 ∧
    fieldAt (render (Formatter.mk (("+0800").toList))
      (mkRecord Severity.critical (("Warning message.").toList)
        (withLine (EmitData.mk 2026 10 12 9 30 0 123 4242 123456 0) 33))) 5 =
      ("Warning message.").toList := by
  decide

end Scratch
